import Mathlib

/-!
Verification of the Funding Orchestrator of the boo-privacy repository.

The definitions below are a shallow embedding of the code in
`src/components/FundingPanel.tsx`, `src/lib/store.ts` and
`src/lib/privacy-cash-client.ts`.  Monetary SOL quantities are modelled as
exact rationals (the source computes them as JS floating-point numbers on
SOL units); lamport quantities are integers obtained with `Int.floor`,
mirroring the source's `Math.floor(x * LAMPORTS_PER_SOL)`.

External collaborators (the Privy signer, the Solana RPC connection and the
privacy-pool SDK) are modelled as an environment record whose fields give
the outcome of each external call; the orchestrator definitions consume the
environment exactly where the source awaits the corresponding call.
-/

namespace BooPrivacy

/-! ### Fee model — `src/components/FundingPanel.tsx` lines 39-41 and 90-110 -/

/-- Source: `const PROTOCOL_FEE_RATE = 0.005` (FundingPanel.tsx line 40). -/
def PROTOCOL_FEE_RATE : ℚ := 0.005

/-- Source: `const WITHDRAWAL_FEE_RATE = 0.0035` (FundingPanel.tsx line 95). -/
def WITHDRAWAL_FEE_RATE : ℚ := 0.0035

/-- Source: `const WITHDRAWAL_RENT = 0.006` (FundingPanel.tsx line 96). -/
def WITHDRAWAL_RENT : ℚ := 0.006

/-- Source: `LAMPORTS_PER_SOL` from `@solana/web3.js` (= 10^9). -/
def LAMPORTS_PER_SOL : ℚ := 1000000000

/-- Source: `const baseAmount = amountNum * walletCount` (line 98). -/
def baseAmount (amountNum : ℚ) (walletCount : ℕ) : ℚ := amountNum * walletCount

/-- Source: `const withdrawalFeePercent = baseAmount * WITHDRAWAL_FEE_RATE` (line 99). -/
def withdrawalFeePercent (amountNum : ℚ) (walletCount : ℕ) : ℚ :=
  baseAmount amountNum walletCount * WITHDRAWAL_FEE_RATE

/-- Source: `const withdrawalRent = WITHDRAWAL_RENT * walletCount` (line 100). -/
def withdrawalRent (walletCount : ℕ) : ℚ := WITHDRAWAL_RENT * walletCount

/-- Source: `const totalWithdrawalFees = withdrawalFeePercent + withdrawalRent` (line 101). -/
def totalWithdrawalFees (amountNum : ℚ) (walletCount : ℕ) : ℚ :=
  withdrawalFeePercent amountNum walletCount + withdrawalRent walletCount

/-- Source: `const totalWithFees = baseAmount + totalWithdrawalFees` (line 102). -/
def totalWithFees (amountNum : ℚ) (walletCount : ℕ) : ℚ :=
  baseAmount amountNum walletCount + totalWithdrawalFees amountNum walletCount

/-- Source: `const needsShielding = shieldedBalance < totalWithFees` (line 104). -/
def needsShielding (shieldedBalance tot : ℚ) : Prop := shieldedBalance < tot

instance (b t : ℚ) : Decidable (needsShielding b t) :=
  inferInstanceAs (Decidable (b < t))

/-- Source: `const amountToShield = Math.max(0, totalWithFees - shieldedBalance)` (line 105). -/
def amountToShield (tot shieldedBalance : ℚ) : ℚ := max 0 (tot - shieldedBalance)

/-- Source: `const protocolFee = amountToShield * PROTOCOL_FEE_RATE` (line 106). -/
def protocolFee (ats : ℚ) : ℚ := ats * PROTOCOL_FEE_RATE

/-- Source: `const totalFromPublic = amountToShield + protocolFee` (line 108). -/
def totalFromPublic (tot shieldedBalance : ℚ) : ℚ :=
  amountToShield tot shieldedBalance + protocolFee (amountToShield tot shieldedBalance)

/-- Source: `const perWalletFees = (amountNum * WITHDRAWAL_FEE_RATE) + WITHDRAWAL_RENT` (line 282). -/
def perWalletFees (amountNum : ℚ) : ℚ := amountNum * WITHDRAWAL_FEE_RATE + WITHDRAWAL_RENT

/-- Source: `const withdrawAmountPerWallet = amountNum + perWalletFees` (line 283). -/
def withdrawAmountPerWallet (amountNum : ℚ) : ℚ := amountNum + perWalletFees amountNum

/-! ### Task store data model — `src/lib/store.ts` lines 11-21 and 104-112 -/

/-- Source: the `status` field of `FundingTask` (store.ts line 18). -/
inductive TaskStatus where
  | pending
  | processing
  | success
  | error
  deriving DecidableEq, Repr

/-- Source: the run status enum `FundingStatus` (store.ts line 11). -/
inductive FundingStatus where
  | idle
  | shielding
  | distributing
  | complete
  | error
  deriving DecidableEq, Repr

/-- Source: `interface FundingTask` (store.ts lines 13-21); `amount` is in lamports. -/
structure FundingTask where
  id : String
  walletIndex : ℕ
  walletAddress : String
  amount : ℤ
  status : TaskStatus
  signature : Option String
  error : Option String
  deriving DecidableEq, Repr

/-- A `Partial<FundingTask>` update as passed to `updateFundingTask`
(store.ts line 45); a `none` field means the key is absent from the update. -/
structure TaskUpdate where
  status : Option TaskStatus := none
  signature : Option String := none
  error : Option String := none
  deriving DecidableEq, Repr

/-- Source: the spread `{ ...task, ...update }` (store.ts line 110): keys present
in the update replace the task's fields, absent keys keep them. -/
def applyUpdate (u : TaskUpdate) (t : FundingTask) : FundingTask :=
  { t with
    status := u.status.getD t.status
    signature := match u.signature with | some v => some v | none => t.signature
    error := match u.error with | some v => some v | none => t.error }

/-- Source: `updateFundingTask` (store.ts lines 108-112): map over the list,
merging the update into every task whose `id` matches. -/
def updateFundingTask (tasks : List FundingTask) (id : String) (u : TaskUpdate) :
    List FundingTask :=
  tasks.map fun t => if t.id = id then applyUpdate u t else t

/-- Source: `DerivedWallet` as used by `handleFund` (index and base58 public key). -/
structure Wallet where
  index : ℕ
  publicKey : String
  deriving DecidableEq, Repr

/-- The store and component state mutated by `handleFund`: the Zustand store
fields it writes (`fundingStatus`, `fundingTasks`, `shieldedBalance`,
`shieldedBalanceLamports`) plus the component-local `isShielding` flag. -/
structure BooState where
  fundingStatus : FundingStatus
  fundingTasks : List FundingTask
  shieldedBalance : ℚ
  shieldedBalanceLamports : ℕ
  isShielding : Bool
  deriving DecidableEq, Repr

/-! ### Orchestrator inputs, environment and observable effects -/

/-- Render-time inputs captured by `handleFund`: the wallet set, the selected
indices, the parsed per-wallet amount and the balance-context balances. -/
structure RunInputs where
  hasWalletSet : Bool
  wallets : List Wallet
  selected : List ℕ
  amountNum : ℚ
  publicBalance : ℚ
  shieldedBalance : ℚ
  deriving Repr

/-- Outcomes of the external calls a run makes: `initOk` is the result of
`ensureInitialized`; `feeTransferOk` whether the protocol-fee transfer signs,
sends and confirms; `depositOk` whether `client.deposit` returns;
`withdrawResult k` the outcome of the `k`-th `client.withdraw` call (a
signature or a thrown error message); the two balance fields are the lamports
reported by `client.getBalance` after the deposit and after the `k`-th
successful withdrawal (`getBalance` is total once the SDK is loaded, see
`PCgetBalance_spec` below). -/
structure RunEnv where
  initOk : Bool
  feeTransferOk : Bool
  depositOk : Bool
  withdrawResult : ℕ → Except String String
  balanceAfterDeposit : ℕ
  balanceAfterTask : ℕ → ℕ

/-- Observable external effects of a run, in order of occurrence. -/
inductive Event where
  | pausePolling
  | resumePolling
  | refreshAllBalances
  | feeTransfer (lamports : ℤ)
  | deposit (lamports : ℤ)
  | withdrawCall (lamports : ℤ) (recipient : String)
  deriving DecidableEq, Repr

/-- Result of one `handleFund` invocation: the final state, the snapshots
taken after every state mutation (in order), the `fundingTasks` snapshots
from bulk task creation onward, and the external-effect log. -/
structure RunResult where
  final : BooState
  states : List BooState
  taskStates : List (List FundingTask)
  events : List Event
  deriving Repr

/-- Source: `canFund` (FundingPanel.tsx line 110). -/
def canFund (inp : RunInputs) : Prop :=
  0 < inp.selected.length ∧ 0 < inp.amountNum ∧
    (totalWithFees inp.amountNum inp.selected.length ≤ inp.shieldedBalance ∨
      totalFromPublic (totalWithFees inp.amountNum inp.selected.length) inp.shieldedBalance ≤
        inp.publicBalance)

instance (inp : RunInputs) : Decidable (canFund inp) := by
  unfold canFund; infer_instance

/-- Source: the template string `` `task-${index}` `` (FundingPanel.tsx line 288). -/
def taskId (index : ℕ) : String := "task-" ++ toString index

/-- Source: task creation (FundingPanel.tsx lines 285-294): one pending task
per selected index, with the wallet's public key (or `''` when the index is
not found) and the fee-compensated amount floored to lamports. -/
def mkTasks (wallets : List Wallet) (selected : List ℕ) (amountNum : ℚ) :
    List FundingTask :=
  selected.map fun index =>
    { id := taskId index
      walletIndex := index
      walletAddress := ((wallets.find? fun w => w.index = index).map Wallet.publicKey).getD ""
      amount := Int.floor (withdrawAmountPerWallet amountNum * LAMPORTS_PER_SOL)
      status := .pending
      signature := none
      error := none }

/-- Result of the per-recipient withdrawal loop. -/
structure LoopResult where
  final : BooState
  states : List BooState
  events : List Event
  deriving Repr

/-- Source: the `for (const task of tasks)` loop (FundingPanel.tsx lines
297-316): mark the task `processing`, call `client.withdraw`, on success mark
it `success` with the signature and re-query the shielded balance, on a
thrown error mark it `error` with the message, then continue with the next
task.  (`abortRef` is set `true` nowhere in the repository, so the
`if (abortRef.current) break` guard never fires and is not modelled.) -/
def runTasks (env : RunEnv) : ℕ → List FundingTask → BooState → LoopResult
  | _, [], s => ⟨s, [], []⟩
  | pos, t :: rest, s =>
    let s1 := { s with
      fundingTasks := updateFundingTask s.fundingTasks t.id { status := some .processing } }
    match env.withdrawResult pos with
    | .ok sig =>
      let s2 := { s1 with
        fundingTasks := updateFundingTask s1.fundingTasks t.id
          { status := some .success, signature := some sig } }
      let lam := env.balanceAfterTask pos
      let s3 := { s2 with
        shieldedBalance := (lam : ℚ) / LAMPORTS_PER_SOL
        shieldedBalanceLamports := lam }
      let r := runTasks env (pos + 1) rest s3
      ⟨r.final, s1 :: s2 :: s3 :: r.states,
        .withdrawCall t.amount t.walletAddress :: r.events⟩
    | .error e =>
      let s2 := { s1 with
        fundingTasks := updateFundingTask s1.fundingTasks t.id
          { status := some .error, error := some e } }
      let r := runTasks env (pos + 1) rest s2
      ⟨r.final, s1 :: s2 :: r.states,
        .withdrawCall t.amount t.walletAddress :: r.events⟩

/-- The per-task outcomes the loop is expected to record: each task ends
`success` with its signature or `error` with the thrown message, according
to its own withdrawal result only. -/
def finalTasks (env : RunEnv) : ℕ → List FundingTask → List FundingTask
  | _, [] => []
  | pos, t :: rest =>
    (match env.withdrawResult pos with
      | .ok sig =>
        applyUpdate { status := some .success, signature := some sig }
          (applyUpdate { status := some .processing } t)
      | .error e =>
        applyUpdate { status := some .error, error := some e }
          (applyUpdate { status := some .processing } t))
    :: finalTasks env (pos + 1) rest

/-- Source: FundingPanel.tsx lines 276-320 — leave the shielding UI state,
set the run status to `distributing`, create and store the tasks, process
them sequentially, then set the run status to `complete`; afterwards the
`finally` block clears `isShielding`, resumes polling and refreshes all
balances. -/
def distributePhase (env : RunEnv) (inp : RunInputs) (s : BooState)
    (trace0 : List BooState) (ev0 : List Event) : RunResult :=
  let s1 := { s with isShielding := false }
  let s2 := { s1 with fundingStatus := .distributing }
  let tasks := mkTasks inp.wallets inp.selected inp.amountNum
  let s3 := { s2 with fundingTasks := tasks }
  let r := runTasks env 0 tasks s3
  let s4 := { r.final with fundingStatus := .complete }
  let s5 := { s4 with isShielding := false }
  { final := s5
    states := trace0 ++ [s1, s2, s3] ++ r.states ++ [s4, s5]
    taskStates := tasks :: r.states.map BooState.fundingTasks
    events := ev0 ++ r.events ++ [.resumePolling, .refreshAllBalances] }

/-- Source: the `catch`/`finally` of `handleFund` (FundingPanel.tsx lines
322-329) reached by a thrown shielding-phase error: set the run status to
`error`, clear `isShielding`, resume polling and refresh all balances. -/
def fatalExit (s : BooState) (trace0 : List BooState) (ev0 : List Event) : RunResult :=
  let sE := { s with fundingStatus := .error }
  let sF := { sE with isShielding := false }
  { final := sF
    states := trace0 ++ [sE, sF]
    taskStates := []
    events := ev0 ++ [.resumePolling, .refreshAllBalances] }

/-- Source: `handleFund` (FundingPanel.tsx lines 203-330).  Guard on
`walletSet`/`canFund`; pause polling; `ensureInitialized` (its rejection
resumes polling and returns); set `isShielding`; if shielding is needed,
send the protocol-fee transfer (when the fee is positive) and call
`client.deposit`, aborting to the catch block if either throws, then
re-query the shielded balance; finally run the distribution phase. -/
def handleFund (env : RunEnv) (inp : RunInputs) (s0 : BooState) : RunResult :=
  if ¬(inp.hasWalletSet = true ∧ canFund inp) then
    { final := s0, states := [], taskStates := [], events := [] }
  else if env.initOk = false then
    { final := s0, states := [], taskStates := [], events := [.pausePolling, .resumePolling] }
  else
    let tot := totalWithFees inp.amountNum inp.selected.length
    let s1 := { s0 with isShielding := decide (needsShielding inp.shieldedBalance tot) }
    if needsShielding inp.shieldedBalance tot then
      let ats := amountToShield tot inp.shieldedBalance
      let pf := protocolFee ats
      if 0 < pf then
        let evFee := [Event.pausePolling,
          Event.feeTransfer (Int.floor (pf * LAMPORTS_PER_SOL))]
        if env.feeTransferOk = false then
          fatalExit s1 [s1] evFee
        else
          let evDep := evFee ++ [Event.deposit (Int.floor (ats * LAMPORTS_PER_SOL))]
          if env.depositOk = false then
            fatalExit s1 [s1] evDep
          else
            let lam := env.balanceAfterDeposit
            let s2 := { s1 with
              shieldedBalance := (lam : ℚ) / LAMPORTS_PER_SOL
              shieldedBalanceLamports := lam }
            distributePhase env inp s2 [s1, s2] evDep
      else
        let evDep := [Event.pausePolling,
          Event.deposit (Int.floor (ats * LAMPORTS_PER_SOL))]
        if env.depositOk = false then
          fatalExit s1 [s1] evDep
        else
          let lam := env.balanceAfterDeposit
          let s2 := { s1 with
            shieldedBalance := (lam : ℚ) / LAMPORTS_PER_SOL
            shieldedBalanceLamports := lam }
          distributePhase env inp s2 [s1, s2] evDep
    else
      distributePhase env inp s1 [s1] [.pausePolling]

/-! ### Privacy Cash client — `src/lib/privacy-cash-client.ts` lines 184-251 -/

/-- The distinct throw sites of `PrivacyCashClient`, one constructor per
`throw` in the source. -/
inductive ClientError where
  | sdkLoadFailed
  | insufficientBalance (balanceLamports : ℕ)
  | rpcFailed
  | encServiceUnavailable
  | sdkThrew (msg : String)
  deriving DecidableEq, Repr

/-- Calls the client issues to the SDK. -/
inductive ClientCall where
  | submitDeposit (lamports : ℕ)
  deriving DecidableEq, Repr

/-- Environment of one `PrivacyCashClient` method call: whether the code runs
in a browser, whether the dynamic SDK import succeeds
(`loadSDK`, lines 132-158), whether
`EncryptionService.deriveEncryptionKeyFromSignature` is available
(`createEncryptionService`, lines 160-179), the outcome of
`getUtxos` (a thrown error or the UTXO lamport values), the SDK's
`getBalanceFromUtxos` result on a non-empty UTXO list (`none` models a
non-numeric/NaN result), the outcome of `connection.getBalance`, and the
outcome of the SDK `deposit` call. -/
structure ClientEnv where
  browser : Bool
  sdkLoadOk : Bool
  encInitOk : Bool
  utxos : Except String (List ℕ)
  balanceFromUtxos : List ℕ → Option ℤ
  rpcBalance : Except String ℕ
  depositTx : Except String String

/-- Source: the defensive result handling in `getBalance` (lines 205-210):
`result.lamports || 0` with a `typeof`//`isNaN` guard. -/
def validLamports (r : Option ℤ) : ℤ := r.getD 0

/-- Source: `PrivacyCashClient.getBalance` (lines 184-220).  Outside a
browser it returns zero; `loadSDK` is awaited before the `try`, so its
failure propagates; everything inside the `try` — encryption-service setup,
`getUtxos` and the balance computation — is caught and turned into a zero
balance; an empty or missing UTXO list is a zero balance. -/
def PCgetBalance (env : ClientEnv) : Except ClientError ℤ :=
  if env.browser = false then .ok 0
  else if env.sdkLoadOk = false then .error .sdkLoadFailed
  else if env.encInitOk = false then .ok 0
  else
    match env.utxos with
    | .error _ => .ok 0
    | .ok [] => .ok 0
    | .ok us => .ok (validLamports (env.balanceFromUtxos us))

/-- Source: `PrivacyCashClient.deposit` (lines 225-251).  After `loadSDK`,
query the wallet's public balance; throw `Insufficient balance` when it is
below the requested lamports plus a 10000-lamport buffer; otherwise derive
the encryption service and submit the deposit to the SDK, returning the
transaction signature. -/
def PCdeposit (env : ClientEnv) (lamports : ℕ) :
    List ClientCall × Except ClientError String :=
  if env.sdkLoadOk = false then ([], .error .sdkLoadFailed)
  else
    match env.rpcBalance with
    | .error _ => ([], .error .rpcFailed)
    | .ok balance =>
      if balance < lamports + 10000 then ([], .error (.insufficientBalance balance))
      else if env.encInitOk = false then ([], .error .encServiceUnavailable)
      else
        ([.submitDeposit lamports],
          match env.depositTx with
          | .ok tx => .ok tx
          | .error e => .error (.sdkThrew e))

/-! ### Decimal-representation facts, used to show task ids are distinct -/

/-- Numeric value of a decimal digit character. -/
def digitVal (c : Char) : ℕ := c.toNat - 48

/-- Decode a most-significant-first list of decimal digit characters. -/
def decodeDigits (l : List Char) : ℕ := l.foldl (fun a c => 10 * a + digitVal c) 0

/-! ### Transition relations, derived states and scenario constants -/

/-- The forward transitions a task status may take between two consecutive
task-store snapshots: stay put, `pending → processing`, or
`processing → success / error`.  Terminal statuses can only stay put. -/
def statusForward (a b : TaskStatus) : Prop :=
  a = b ∨ (a = .pending ∧ b = .processing) ∨
    (a = .processing ∧ (b = .success ∨ b = .error))

instance (a b : TaskStatus) : Decidable (statusForward a b) := by
  unfold statusForward; infer_instance

/-- Per-task relation between consecutive snapshots: same id, forward status. -/
def taskStep (a b : FundingTask) : Prop := a.id = b.id ∧ statusForward a.status b.status

/-- Pointwise forward evolution of a whole task-store snapshot. -/
def taskForward (l1 l2 : List FundingTask) : Prop := List.Forall₂ taskStep l1 l2

/-- Rank of a run status along the state machine; `complete` and `error` are
both terminal. -/
def statusRank : FundingStatus → ℕ
  | .idle => 0
  | .shielding => 1
  | .distributing => 2
  | .complete => 3
  | .error => 3

/-- The store state at the start of the withdrawal loop: status
`distributing`, freshly created tasks, shielding flag cleared. -/
def distState (inp : RunInputs) (s : BooState) : BooState :=
  { s with
    fundingStatus := .distributing
    fundingTasks := mkTasks inp.wallets inp.selected inp.amountNum
    isShielding := false }

/-- Modelled from the spec: the external privacy-pool service is not part of
`src/`; per the spec its withdrawal deducts its own fee and rent from the
requested gross amount, with the inverse relationship
`maxNet(balance, feeRate, flatRent) = (balance - flatRent) / (1 + feeRate)`,
so the net received for a requested `gross` is
`(gross - flatRent) / (1 + feeRate)`. -/
def serviceNet (gross feeRate flatRent : ℚ) : ℚ := (gross - flatRent) / (1 + feeRate)

/-- Recognise a withdraw-call event. -/
def isWithdrawCall : Event → Bool
  | .withdrawCall _ _ => true
  | _ => false

/-- Recognise a protocol-fee transfer event. -/
def isFeeTransfer : Event → Bool
  | .feeTransfer _ => true
  | _ => false

/-- Recognise a deposit (shielding) event. -/
def isDeposit : Event → Bool
  | .deposit _ => true
  | _ => false

/-- Scenario wallet set: three derived wallets. -/
def demoWallets : List Wallet := [⟨0, "walletA"⟩, ⟨1, "walletB"⟩, ⟨2, "walletC"⟩]

/-- Scenario store state before the run: idle, no tasks, zero balances. -/
def demoState : BooState :=
  { fundingStatus := .idle
    fundingTasks := []
    shieldedBalance := 0
    shieldedBalanceLamports := 0
    isShielding := false }

/-- Scenario inputs from the spec's example 1: three recipients at 1 SOL
each, public balance 10, shielded balance 0. -/
def demoInputs : RunInputs :=
  { hasWalletSet := true
    wallets := demoWallets
    selected := [0, 1, 2]
    amountNum := 1
    publicBalance := 10
    shieldedBalance := 0 }

/-- Environment in which every external call succeeds. -/
def demoEnvOk : RunEnv :=
  { initOk := true
    feeTransferOk := true
    depositOk := true
    withdrawResult := fun _ => .ok "sig"
    balanceAfterDeposit := 3028500000
    balanceAfterTask := fun _ => 0 }

/-- Environment in which only the second withdrawal (recipient B) fails. -/
def demoEnvBFails : RunEnv :=
  { demoEnvOk with
    withdrawResult := fun k => if k = 1 then .error "relay timeout" else .ok "sig" }

/-- Environment in which the one-time initialization is rejected. -/
def demoEnvInitFail : RunEnv := { demoEnvOk with initOk := false }

/-- Environment in which the deposit (shielding) call throws. -/
def demoEnvDepositFail : RunEnv := { demoEnvOk with depositOk := false }

/-- Client environment: initialized account with an empty UTXO set. -/
def demoClientEmpty : ClientEnv :=
  { browser := true
    sdkLoadOk := true
    encInitOk := true
    utxos := .ok []
    balanceFromUtxos := fun _ => none
    rpcBalance := .ok 100000000
    depositTx := .ok "tx" }

/-- Client environment: wallet with only 5000 lamports on chain. -/
def demoClientPoor : ClientEnv := { demoClientEmpty with rpcBalance := .ok 5000 }

theorem digitVal_digitChar {d : ℕ} (h : d < 10) : digitVal (Nat.digitChar d) = d := by
  interval_cases d <;> decide

theorem toDigitsCore_eq_append (b : ℕ) :
    ∀ (fuel n : ℕ) (ds : List Char),
      Nat.toDigitsCore b fuel n ds = Nat.toDigitsCore b fuel n [] ++ ds := by
  intro fuel
  induction fuel with
  | zero => intro n ds; simp [Nat.toDigitsCore]
  | succ fuel ih =>
    intro n ds
    simp only [Nat.toDigitsCore]
    by_cases h : n / b = 0
    · simp [h]
    · simp only [h, if_false]
      rw [ih (n / b) (Nat.digitChar (n % b) :: ds), ih (n / b) [Nat.digitChar (n % b)]]
      simp

theorem decode_toDigitsCore :
    ∀ (fuel n : ℕ), n < fuel → decodeDigits (Nat.toDigitsCore 10 fuel n []) = n := by
  intro fuel
  induction fuel with
  | zero => intro n hn; omega
  | succ fuel ih =>
    intro n hn
    simp only [Nat.toDigitsCore]
    by_cases h : n / 10 = 0
    · have hlt : n < 10 := by omega
      have hmod : n % 10 = n := Nat.mod_eq_of_lt hlt
      have hone : decodeDigits [Nat.digitChar (n % 10)] = digitVal (Nat.digitChar (n % 10)) := by
        simp [decodeDigits]
      rw [if_pos h, hone, hmod, digitVal_digitChar hlt]
    · have hpos : 0 < n := by omega
      have hdlt : n / 10 < n := Nat.div_lt_self hpos (by norm_num)
      rw [if_neg h, toDigitsCore_eq_append]
      have hrec :
          decodeDigits (Nat.toDigitsCore 10 fuel (n / 10) [] ++ [Nat.digitChar (n % 10)])
            = 10 * decodeDigits (Nat.toDigitsCore 10 fuel (n / 10) [])
                + digitVal (Nat.digitChar (n % 10)) := by
        simp [decodeDigits, List.foldl_append]
      rw [hrec, ih (n / 10) (by omega), digitVal_digitChar (Nat.mod_lt _ (by norm_num))]
      omega

theorem decode_toDigits (n : ℕ) : decodeDigits (Nat.toDigits 10 n) = n := by
  have := decode_toDigitsCore (n + 1) n (Nat.lt_succ_self n)
  simpa [Nat.toDigits] using this

theorem natRepr_injective : Function.Injective Nat.repr := by
  intro m n h
  have hd : Nat.toDigits 10 m = Nat.toDigits 10 n := by
    have := congrArg String.data h
    simpa [Nat.repr, List.asString] using this
  have hm := decode_toDigits m
  rw [hd, decode_toDigits n] at hm
  exact hm.symm

theorem taskId_injective {m n : ℕ} (h : taskId m = taskId n) : m = n := by
  have hd := congrArg String.data h
  simp only [taskId, String.data_append] at hd
  have hdata : (toString m : String).data = (toString n : String).data :=
    List.append_cancel_left hd
  exact natRepr_injective (String.ext hdata)

/-! ### Task-status transition relations -/

theorem taskForward_refl (l : List FundingTask) : taskForward l l :=
  List.forall₂_same.2 fun _ _ => ⟨rfl, Or.inl rfl⟩

/-! ### Behaviour of `updateFundingTask` on a store with distinct ids -/

theorem updateFundingTask_fresh (l : List FundingTask) (id : String) (u : TaskUpdate)
    (h : ∀ x ∈ l, x.id ≠ id) : updateFundingTask l id u = l := by
  induction l with
  | nil => rfl
  | cons x xs ih =>
    have hx : x.id ≠ id := h x (List.mem_cons_self x xs)
    have hxs : ∀ y ∈ xs, y.id ≠ id := fun y hy => h y (List.mem_cons_of_mem x hy)
    simp [updateFundingTask, hx, List.map_cons] at ih ⊢
    exact ih hxs

theorem updateFundingTask_middle (pre post : List FundingTask) (c : FundingTask)
    (id : String) (u : TaskUpdate) (hc : c.id = id)
    (hpre : ∀ x ∈ pre, x.id ≠ id) (hpost : ∀ x ∈ post, x.id ≠ id) :
    updateFundingTask (pre ++ c :: post) id u = pre ++ applyUpdate u c :: post := by
  unfold updateFundingTask
  rw [List.map_append, List.map_cons, if_pos hc]
  have h1 : pre.map (fun t => if t.id = id then applyUpdate u t else t) = pre :=
    updateFundingTask_fresh pre id u hpre
  have h2 : post.map (fun t => if t.id = id then applyUpdate u t else t) = post :=
    updateFundingTask_fresh post id u hpost
  rw [h1, h2]

theorem applyUpdate_id (u : TaskUpdate) (t : FundingTask) : (applyUpdate u t).id = t.id := rfl

theorem taskForward_middle (pre post : List FundingTask) {a b : FundingTask}
    (hid : a.id = b.id) (hst : statusForward a.status b.status) :
    taskForward (pre ++ a :: post) (pre ++ b :: post) :=
  List.rel_append (taskForward_refl pre) (List.Forall₂.cons ⟨hid, hst⟩ (taskForward_refl post))

/-- Full characterisation of the withdrawal loop on a task store whose ids
are pairwise distinct and whose pending tasks are exactly the remaining
ones: the final store is the untouched prefix plus the per-task outcomes,
one withdraw call is issued per task in list order, every consecutive pair
of task-store snapshots is a forward evolution, and the loop never touches
the run status. -/
theorem runTasks_spec (env : RunEnv) :
    ∀ (rem pre : List FundingTask) (pos : ℕ) (s : BooState),
      s.fundingTasks = pre ++ rem →
      (∀ x ∈ pre, ∀ y ∈ rem, x.id ≠ y.id) →
      rem.Pairwise (fun a b => a.id ≠ b.id) →
      (∀ y ∈ rem, y.status = .pending) →
      (runTasks env pos rem s).final.fundingTasks = pre ++ finalTasks env pos rem ∧
      (runTasks env pos rem s).events
        = rem.map (fun t => Event.withdrawCall t.amount t.walletAddress) ∧
      List.Chain' taskForward
        (s.fundingTasks :: (runTasks env pos rem s).states.map BooState.fundingTasks) ∧
      (∀ st ∈ (runTasks env pos rem s).states, st.fundingStatus = s.fundingStatus) ∧
      (runTasks env pos rem s).final.fundingStatus = s.fundingStatus := by
  intro rem
  induction rem with
  | nil =>
    intro pre pos s hs _ _ _
    refine ⟨by simpa [runTasks, finalTasks] using hs, rfl, ?_, ?_, rfl⟩
    · exact List.chain'_singleton _
    · intro st hst
      simp [runTasks] at hst
  | cons t rest ih =>
    intro pre pos s hs hfresh hpair hpend
    have hpairc := List.pairwise_cons.1 hpair
    have hpre_t : ∀ x ∈ pre, x.id ≠ t.id :=
      fun x hx => hfresh x hx t (List.mem_cons_self t rest)
    have hrest_t : ∀ y ∈ rest, y.id ≠ t.id :=
      fun y hy => (hpairc.1 y hy).symm
    have htpend : t.status = .pending := hpend t (List.mem_cons_self t rest)
    have hmid1 :
        updateFundingTask (pre ++ t :: rest) t.id { status := some .processing }
          = pre ++ applyUpdate { status := some .processing } t :: rest :=
      updateFundingTask_middle pre rest t t.id _ rfl hpre_t hrest_t
    have hstep1 : statusForward t.status (applyUpdate { status := some .processing } t).status := by
      rw [htpend]; exact Or.inr (Or.inl ⟨rfl, rfl⟩)
    cases hw : env.withdrawResult pos with
    | ok sig =>
      have hmid2 :
          updateFundingTask (pre ++ applyUpdate { status := some .processing } t :: rest) t.id
              { status := some .success, signature := some sig }
            = pre ++ applyUpdate { status := some .success, signature := some sig }
                (applyUpdate { status := some .processing } t) :: rest :=
        updateFundingTask_middle pre rest _ t.id _ rfl hpre_t hrest_t
      simp only [runTasks, hw, hs, hmid1, hmid2]
      set t2 := applyUpdate { status := some .success, signature := some sig }
        (applyUpdate { status := some .processing } t) with ht2
      set s3 : BooState :=
        { s with
          fundingTasks := pre ++ t2 :: rest
          shieldedBalance := ((env.balanceAfterTask pos : ℕ) : ℚ) / LAMPORTS_PER_SOL
          shieldedBalanceLamports := env.balanceAfterTask pos } with hs3
      obtain ⟨ihA, ihB, ihC, ihD, ihE⟩ :=
        ih (pre ++ [t2]) (pos + 1) s3 (by simp [hs3])
          (by
            intro x hx y hy
            rcases List.mem_append.1 hx with hx | hx
            · exact hfresh x hx y (List.mem_cons_of_mem t hy)
            · have hx2 : x = t2 := by simpa using hx
              subst hx2
              have : t2.id = t.id := rfl
              rw [this]
              exact hpairc.1 y hy)
          hpairc.2
          (fun y hy => hpend y (List.mem_cons_of_mem t hy))
      refine ⟨?_, ?_, ?_, ?_, ?_⟩
      · rw [ihA]
        simp [finalTasks, hw]
      · rw [ihB]
        rfl
      · refine List.chain'_cons.2 ⟨taskForward_middle pre rest rfl hstep1, ?_⟩
        refine List.chain'_cons.2
          ⟨taskForward_middle pre rest rfl (Or.inr (Or.inr ⟨rfl, Or.inl rfl⟩)), ?_⟩
        refine List.chain'_cons.2 ⟨taskForward_refl _, ?_⟩
        simpa [hs3] using ihC
      · intro st hst
        simp only [List.mem_cons] at hst
        rcases hst with rfl | hst
        · rfl
        rcases hst with rfl | hst
        · rfl
        rcases hst with rfl | hst
        · rfl
        · exact ihD st hst
      · exact ihE
    | error e =>
      have hmid2 :
          updateFundingTask (pre ++ applyUpdate { status := some .processing } t :: rest) t.id
              { status := some .error, error := some e }
            = pre ++ applyUpdate { status := some .error, error := some e }
                (applyUpdate { status := some .processing } t) :: rest :=
        updateFundingTask_middle pre rest _ t.id _ rfl hpre_t hrest_t
      simp only [runTasks, hw, hs, hmid1, hmid2]
      set t2 := applyUpdate { status := some .error, error := some e }
        (applyUpdate { status := some .processing } t) with ht2
      set s2 : BooState := { s with fundingTasks := pre ++ t2 :: rest } with hs2
      obtain ⟨ihA, ihB, ihC, ihD, ihE⟩ :=
        ih (pre ++ [t2]) (pos + 1) s2 (by simp [hs2])
          (by
            intro x hx y hy
            rcases List.mem_append.1 hx with hx | hx
            · exact hfresh x hx y (List.mem_cons_of_mem t hy)
            · have hx2 : x = t2 := by simpa using hx
              subst hx2
              have : t2.id = t.id := rfl
              rw [this]
              exact hpairc.1 y hy)
          hpairc.2
          (fun y hy => hpend y (List.mem_cons_of_mem t hy))
      refine ⟨?_, ?_, ?_, ?_, ?_⟩
      · rw [ihA]
        simp [finalTasks, hw]
      · rw [ihB]
        rfl
      · refine List.chain'_cons.2 ⟨taskForward_middle pre rest rfl hstep1, ?_⟩
        refine List.chain'_cons.2
          ⟨taskForward_middle pre rest rfl (Or.inr (Or.inr ⟨rfl, Or.inr rfl⟩)), ?_⟩
        simpa [hs2] using ihC
      · intro st hst
        simp only [List.mem_cons] at hst
        rcases hst with rfl | hst
        · rfl
        rcases hst with rfl | hst
        · rfl
        · exact ihD st hst
      · exact ihE

/-- The withdraw calls issued by the loop depend only on the task list:
one call per task, in list order. -/
theorem runTasks_events (env : RunEnv) :
    ∀ (rem : List FundingTask) (pos : ℕ) (s : BooState),
      (runTasks env pos rem s).events
        = rem.map fun t => Event.withdrawCall t.amount t.walletAddress := by
  intro rem
  induction rem with
  | nil => intro pos s; rfl
  | cons t rest ih =>
    intro pos s
    cases hw : env.withdrawResult pos with
    | ok sig => simp only [runTasks, hw, ih, List.map_cons]
    | error e => simp only [runTasks, hw, ih, List.map_cons]

/-- The loop never changes the run status. -/
theorem runTasks_status_inv (env : RunEnv) :
    ∀ (rem : List FundingTask) (pos : ℕ) (s : BooState),
      (runTasks env pos rem s).final.fundingStatus = s.fundingStatus ∧
      ∀ st ∈ (runTasks env pos rem s).states, st.fundingStatus = s.fundingStatus := by
  intro rem
  induction rem with
  | nil =>
    intro pos s
    exact ⟨rfl, by intro st hst; simp [runTasks] at hst⟩
  | cons t rest ih =>
    intro pos s
    cases hw : env.withdrawResult pos with
    | ok sig =>
      simp only [runTasks, hw]
      refine ⟨(ih _ _).1, ?_⟩
      intro st hst
      simp only [List.mem_cons] at hst
      rcases hst with rfl | rfl | rfl | hst
      · rfl
      · rfl
      · rfl
      · have h5 := (ih (pos + 1) _).2 st hst
        exact h5
    | error e =>
      simp only [runTasks, hw]
      refine ⟨(ih _ _).1, ?_⟩
      intro st hst
      simp only [List.mem_cons] at hst
      rcases hst with rfl | rfl | hst
      · rfl
      · rfl
      · have h5 := (ih (pos + 1) _).2 st hst
        exact h5

/-! ### Facts about freshly created tasks -/

theorem mkTasks_status (wallets : List Wallet) (selected : List ℕ) (amountNum : ℚ) :
    ∀ t ∈ mkTasks wallets selected amountNum, t.status = .pending := by
  intro t ht
  simp only [mkTasks, List.mem_map] at ht
  obtain ⟨i, _, rfl⟩ := ht
  rfl

theorem mkTasks_amount (wallets : List Wallet) (selected : List ℕ) (amountNum : ℚ) :
    ∀ t ∈ mkTasks wallets selected amountNum,
      t.amount = Int.floor (withdrawAmountPerWallet amountNum * LAMPORTS_PER_SOL) := by
  intro t ht
  simp only [mkTasks, List.mem_map] at ht
  obtain ⟨i, _, rfl⟩ := ht
  rfl

theorem mkTasks_pairwise (wallets : List Wallet) (selected : List ℕ) (amountNum : ℚ)
    (h : selected.Nodup) :
    (mkTasks wallets selected amountNum).Pairwise fun a b => a.id ≠ b.id := by
  unfold mkTasks
  rw [List.pairwise_map]
  refine h.imp ?_
  intro a b hab hid
  exact hab (taskId_injective hid)

theorem finalTasks_get? (env : RunEnv) :
    ∀ (rem : List FundingTask) (pos k : ℕ),
      (finalTasks env pos rem).get? k
        = (rem.get? k).map fun t =>
            match env.withdrawResult (pos + k) with
            | .ok sig => { t with status := .success, signature := some sig }
            | .error e => { t with status := .error, error := some e } := by
  intro rem
  induction rem with
  | nil => intro pos k; simp [finalTasks]
  | cons t rest ih =>
    intro pos k
    cases k with
    | zero =>
      simp only [finalTasks, List.get?, Nat.add_zero, Option.map_some']
      cases hw : env.withdrawResult pos with
      | ok sig => rfl
      | error e => rfl
    | succ k =>
      simp only [finalTasks, List.get?]
      rw [ih (pos + 1) k]
      have harith : pos + 1 + k = pos + (k + 1) := by omega
      rw [harith]

/-! ### Path equations for `handleFund` -/

theorem protocolFee_pos {b tot : ℚ} (h : needsShielding b tot) :
    0 < protocolFee (amountToShield tot b) := by
  unfold needsShielding at h
  unfold protocolFee amountToShield PROTOCOL_FEE_RATE
  have h1 : (0 : ℚ) < tot - b := by linarith
  have h2 : (0 : ℚ) < max 0 (tot - b) := lt_max_of_lt_right h1
  positivity

theorem handleFund_eq_guard (env : RunEnv) (inp : RunInputs) (s0 : BooState)
    (h : ¬(inp.hasWalletSet = true ∧ canFund inp)) :
    handleFund env inp s0 = ⟨s0, [], [], []⟩ := by
  rw [handleFund, if_pos h]

theorem handleFund_eq_initFail (env : RunEnv) (inp : RunInputs) (s0 : BooState)
    (h : inp.hasWalletSet = true ∧ canFund inp) (hi : env.initOk = false) :
    handleFund env inp s0 = ⟨s0, [], [], [.pausePolling, .resumePolling]⟩ := by
  rw [handleFund, if_neg (not_not_intro h), if_pos hi]

theorem handleFund_eq_noShield (env : RunEnv) (inp : RunInputs) (s0 : BooState)
    (h : inp.hasWalletSet = true ∧ canFund inp) (hi : env.initOk = true)
    (hns : ¬needsShielding inp.shieldedBalance
      (totalWithFees inp.amountNum inp.selected.length)) :
    handleFund env inp s0
      = distributePhase env inp { s0 with isShielding := false }
          [{ s0 with isShielding := false }] [.pausePolling] := by
  rw [handleFund, if_neg (not_not_intro h), if_neg (by simp [hi])]
  simp only [decide_eq_false hns, if_neg hns]

theorem handleFund_eq_feeFail (env : RunEnv) (inp : RunInputs) (s0 : BooState)
    (h : inp.hasWalletSet = true ∧ canFund inp) (hi : env.initOk = true)
    (hns : needsShielding inp.shieldedBalance
      (totalWithFees inp.amountNum inp.selected.length))
    (hfee : env.feeTransferOk = false) :
    handleFund env inp s0
      = fatalExit { s0 with isShielding := true } [{ s0 with isShielding := true }]
          [.pausePolling,
            .feeTransfer (Int.floor
              (protocolFee (amountToShield
                (totalWithFees inp.amountNum inp.selected.length) inp.shieldedBalance)
                * LAMPORTS_PER_SOL))] := by
  rw [handleFund, if_neg (not_not_intro h), if_neg (by simp [hi])]
  simp only [decide_eq_true hns, if_pos hns, if_pos (protocolFee_pos hns), if_pos hfee]

theorem handleFund_eq_depositFail (env : RunEnv) (inp : RunInputs) (s0 : BooState)
    (h : inp.hasWalletSet = true ∧ canFund inp) (hi : env.initOk = true)
    (hns : needsShielding inp.shieldedBalance
      (totalWithFees inp.amountNum inp.selected.length))
    (hfee : env.feeTransferOk = true) (hdep : env.depositOk = false) :
    handleFund env inp s0
      = fatalExit { s0 with isShielding := true } [{ s0 with isShielding := true }]
          [.pausePolling,
            .feeTransfer (Int.floor
              (protocolFee (amountToShield
                (totalWithFees inp.amountNum inp.selected.length) inp.shieldedBalance)
                * LAMPORTS_PER_SOL)),
            .deposit (Int.floor
              (amountToShield (totalWithFees inp.amountNum inp.selected.length)
                inp.shieldedBalance * LAMPORTS_PER_SOL))] := by
  have hfee' : ¬(env.feeTransferOk = false) := by simp [hfee]
  rw [handleFund, if_neg (not_not_intro h), if_neg (by simp [hi])]
  simp only [decide_eq_true hns, if_pos hns, if_pos (protocolFee_pos hns)]
  rw [if_neg hfee', if_pos hdep]
  rfl

theorem handleFund_eq_shieldOk (env : RunEnv) (inp : RunInputs) (s0 : BooState)
    (h : inp.hasWalletSet = true ∧ canFund inp) (hi : env.initOk = true)
    (hns : needsShielding inp.shieldedBalance
      (totalWithFees inp.amountNum inp.selected.length))
    (hfee : env.feeTransferOk = true) (hdep : env.depositOk = true) :
    handleFund env inp s0
      = distributePhase env inp
          { s0 with
            isShielding := true
            shieldedBalance := ((env.balanceAfterDeposit : ℕ) : ℚ) / LAMPORTS_PER_SOL
            shieldedBalanceLamports := env.balanceAfterDeposit }
          [{ s0 with isShielding := true },
            { s0 with
              isShielding := true
              shieldedBalance := ((env.balanceAfterDeposit : ℕ) : ℚ) / LAMPORTS_PER_SOL
              shieldedBalanceLamports := env.balanceAfterDeposit }]
          [.pausePolling,
            .feeTransfer (Int.floor
              (protocolFee (amountToShield
                (totalWithFees inp.amountNum inp.selected.length) inp.shieldedBalance)
                * LAMPORTS_PER_SOL)),
            .deposit (Int.floor
              (amountToShield (totalWithFees inp.amountNum inp.selected.length)
                inp.shieldedBalance * LAMPORTS_PER_SOL))] := by
  have hfee' : ¬(env.feeTransferOk = false) := by simp [hfee]
  have hdep' : ¬(env.depositOk = false) := by simp [hdep]
  rw [handleFund, if_neg (not_not_intro h), if_neg (by simp [hi])]
  simp only [decide_eq_true hns, if_pos hns, if_pos (protocolFee_pos hns)]
  rw [if_neg hfee', if_neg hdep']
  rfl

theorem distributePhase_eq (env : RunEnv) (inp : RunInputs) (s : BooState)
    (trace0 : List BooState) (ev0 : List Event) :
    distributePhase env inp s trace0 ev0 =
      { final :=
          { (runTasks env 0 (mkTasks inp.wallets inp.selected inp.amountNum)
                (distState inp s)).final with
            fundingStatus := .complete
            isShielding := false }
        states :=
          trace0
            ++ [{ s with isShielding := false },
                { s with fundingStatus := .distributing, isShielding := false },
                distState inp s]
            ++ (runTasks env 0 (mkTasks inp.wallets inp.selected inp.amountNum)
                  (distState inp s)).states
            ++ [{ (runTasks env 0 (mkTasks inp.wallets inp.selected inp.amountNum)
                    (distState inp s)).final with fundingStatus := .complete },
                { (runTasks env 0 (mkTasks inp.wallets inp.selected inp.amountNum)
                    (distState inp s)).final with
                  fundingStatus := .complete
                  isShielding := false }]
        taskStates :=
          mkTasks inp.wallets inp.selected inp.amountNum
            :: (runTasks env 0 (mkTasks inp.wallets inp.selected inp.amountNum)
                  (distState inp s)).states.map BooState.fundingTasks
        events :=
          ev0
            ++ (runTasks env 0 (mkTasks inp.wallets inp.selected inp.amountNum)
                  (distState inp s)).events
            ++ [.resumePolling, .refreshAllBalances] } := rfl

/-- `runTasks_spec` specialised to a store holding exactly the fresh tasks. -/
theorem runTasks_spec0 (env : RunEnv) (tasks : List FundingTask) (s : BooState)
    (hs : s.fundingTasks = tasks)
    (hpair : tasks.Pairwise fun a b => a.id ≠ b.id)
    (hpend : ∀ y ∈ tasks, y.status = .pending) :
    (runTasks env 0 tasks s).final.fundingTasks = finalTasks env 0 tasks ∧
    List.Chain' taskForward
      (tasks :: (runTasks env 0 tasks s).states.map BooState.fundingTasks) := by
  obtain ⟨hA, _, hC, _, _⟩ :=
    runTasks_spec env tasks [] 0 s (by simpa using hs) (by simp) hpair hpend
  refine ⟨by simpa using hA, ?_⟩
  rwa [hs] at hC

theorem distributePhase_final_status (env : RunEnv) (inp : RunInputs) (s : BooState)
    (trace0 : List BooState) (ev0 : List Event) :
    (distributePhase env inp s trace0 ev0).final.fundingStatus = .complete := by
  rw [distributePhase_eq]

theorem distributePhase_final_tasks (env : RunEnv) (inp : RunInputs) (s : BooState)
    (trace0 : List BooState) (ev0 : List Event) (hnodup : inp.selected.Nodup) :
    (distributePhase env inp s trace0 ev0).final.fundingTasks
      = finalTasks env 0 (mkTasks inp.wallets inp.selected inp.amountNum) := by
  rw [distributePhase_eq]
  exact (runTasks_spec0 env _ (distState inp s) rfl
    (mkTasks_pairwise _ _ _ hnodup) (mkTasks_status _ _ _)).1

theorem distributePhase_chain (env : RunEnv) (inp : RunInputs) (s : BooState)
    (trace0 : List BooState) (ev0 : List Event) (hnodup : inp.selected.Nodup) :
    List.Chain' taskForward (distributePhase env inp s trace0 ev0).taskStates := by
  rw [distributePhase_eq]
  exact (runTasks_spec0 env _ (distState inp s) rfl
    (mkTasks_pairwise _ _ _ hnodup) (mkTasks_status _ _ _)).2

theorem distributePhase_events (env : RunEnv) (inp : RunInputs) (s : BooState)
    (trace0 : List BooState) (ev0 : List Event) :
    (distributePhase env inp s trace0 ev0).events
      = ev0
        ++ (mkTasks inp.wallets inp.selected inp.amountNum).map
            (fun t => Event.withdrawCall t.amount t.walletAddress)
        ++ [.resumePolling, .refreshAllBalances] := by
  rw [distributePhase_eq]
  rw [runTasks_events]

theorem distributePhase_status_map (env : RunEnv) (inp : RunInputs) (s : BooState)
    (trace0 : List BooState) (ev0 : List Event) :
    ∃ n, (distributePhase env inp s trace0 ev0).states.map BooState.fundingStatus
      = trace0.map BooState.fundingStatus
        ++ [s.fundingStatus, .distributing, .distributing]
        ++ List.replicate n .distributing
        ++ [.complete, .complete] := by
  rw [distributePhase_eq]
  refine ⟨(runTasks env 0 (mkTasks inp.wallets inp.selected inp.amountNum)
    (distState inp s)).states.length, ?_⟩
  have hrepl :
      (runTasks env 0 (mkTasks inp.wallets inp.selected inp.amountNum)
          (distState inp s)).states.map BooState.fundingStatus
        = List.replicate
            (runTasks env 0 (mkTasks inp.wallets inp.selected inp.amountNum)
              (distState inp s)).states.length .distributing := by
    rw [List.eq_replicate_iff]
    refine ⟨by simp, ?_⟩
    intro b hb
    simp only [List.mem_map] at hb
    obtain ⟨st, hst, rfl⟩ := hb
    exact (runTasks_status_inv env _ 0 (distState inp s)).2 st hst
  simp only [List.map_append, List.map_cons, List.map_nil, hrepl]
  rfl

/-! ### Rank monotonicity helpers -/

theorem pairwise_rank_const (c : FundingStatus) (l : List FundingStatus)
    (h : ∀ x ∈ l, x = c) :
    l.Pairwise fun a b => statusRank a ≤ statusRank b := by
  induction l with
  | nil => exact List.Pairwise.nil
  | cons x xs ih =>
    refine List.pairwise_cons.2 ⟨?_, ih fun y hy => h y (List.mem_cons_of_mem x hy)⟩
    intro y hy
    rw [h x (List.mem_cons_self x xs), h y (List.mem_cons_of_mem x hy)]

theorem pairwise_rank_blocks (a b c : FundingStatus) (A B C : List FundingStatus)
    (hA : ∀ x ∈ A, x = a) (hB : ∀ x ∈ B, x = b) (hC : ∀ x ∈ C, x = c)
    (hab : statusRank a ≤ statusRank b) (hbc : statusRank b ≤ statusRank c)
    (hac : statusRank a ≤ statusRank c) :
    (A ++ B ++ C).Pairwise fun x y => statusRank x ≤ statusRank y := by
  refine List.pairwise_append.2 ⟨List.pairwise_append.2
    ⟨pairwise_rank_const a A hA, pairwise_rank_const b B hB, ?_⟩,
    pairwise_rank_const c C hC, ?_⟩
  · intro x hx y hy
    rw [hA x hx, hB y hy]
    exact hab
  · intro x hx y hy
    rcases List.mem_append.1 hx with hx | hx
    · rw [hA x hx, hC y hy]; exact hac
    · rw [hB x hx, hC y hy]; exact hbc

/-! ### Numeric facts for the example scenario -/

theorem demo_totalWithFees :
    totalWithFees demoInputs.amountNum demoInputs.selected.length = 3.0285 := by
  norm_num [totalWithFees, baseAmount, totalWithdrawalFees, withdrawalFeePercent,
    withdrawalRent, WITHDRAWAL_FEE_RATE, WITHDRAWAL_RENT, demoInputs]

theorem demo_canFund : canFund demoInputs := by
  refine ⟨by norm_num [demoInputs], by norm_num [demoInputs], Or.inr ?_⟩
  rw [demo_totalWithFees]
  norm_num [totalFromPublic, amountToShield, protocolFee, PROTOCOL_FEE_RATE,
    demoInputs, max_def]

theorem demo_needsShielding :
    needsShielding demoInputs.shieldedBalance
      (totalWithFees demoInputs.amountNum demoInputs.selected.length) := by
  rw [needsShielding, demo_totalWithFees]
  norm_num [demoInputs]

theorem demo_ats :
    amountToShield (totalWithFees demoInputs.amountNum demoInputs.selected.length)
      demoInputs.shieldedBalance = 3.0285 := by
  rw [amountToShield, demo_totalWithFees]
  norm_num [demoInputs, max_def]

theorem demo_protocolFee :
    protocolFee (amountToShield
      (totalWithFees demoInputs.amountNum demoInputs.selected.length)
      demoInputs.shieldedBalance) = 0.0151425 := by
  rw [protocolFee, demo_ats]
  norm_num [PROTOCOL_FEE_RATE]

theorem demo_gross : withdrawAmountPerWallet demoInputs.amountNum = 1.0095 := by
  norm_num [withdrawAmountPerWallet, perWalletFees, WITHDRAWAL_FEE_RATE,
    WITHDRAWAL_RENT, demoInputs]

theorem demo_gross_floor :
    Int.floor (withdrawAmountPerWallet 1 * LAMPORTS_PER_SOL) = 1009500000 := by
  have h : withdrawAmountPerWallet 1 * LAMPORTS_PER_SOL = (1009500000 : ℚ) := by
    norm_num [withdrawAmountPerWallet, perWalletFees, WITHDRAWAL_FEE_RATE,
      WITHDRAWAL_RENT, LAMPORTS_PER_SOL]
  rw [h]
  exact Int.floor_ofNat _

theorem demo_fee_floor :
    Int.floor (protocolFee (amountToShield
        (totalWithFees demoInputs.amountNum demoInputs.selected.length)
        demoInputs.shieldedBalance) * LAMPORTS_PER_SOL) = 15142500 := by
  have h : protocolFee (amountToShield
      (totalWithFees demoInputs.amountNum demoInputs.selected.length)
      demoInputs.shieldedBalance) * LAMPORTS_PER_SOL = (15142500 : ℚ) := by
    rw [demo_protocolFee]
    norm_num [LAMPORTS_PER_SOL]
  rw [h]
  exact Int.floor_ofNat _

theorem demo_shield_floor :
    Int.floor (amountToShield
        (totalWithFees demoInputs.amountNum demoInputs.selected.length)
        demoInputs.shieldedBalance * LAMPORTS_PER_SOL) = 3028500000 := by
  have h : amountToShield
      (totalWithFees demoInputs.amountNum demoInputs.selected.length)
      demoInputs.shieldedBalance * LAMPORTS_PER_SOL = (3028500000 : ℚ) := by
    rw [demo_ats]
    norm_num [LAMPORTS_PER_SOL]
  rw [h]
  exact Int.floor_ofNat _

theorem demo_tasks :
    mkTasks demoInputs.wallets demoInputs.selected demoInputs.amountNum
      = [{ id := taskId 0, walletIndex := 0, walletAddress := "walletA",
            amount := Int.floor (withdrawAmountPerWallet 1 * LAMPORTS_PER_SOL),
            status := .pending, signature := none, error := none },
          { id := taskId 1, walletIndex := 1, walletAddress := "walletB",
            amount := Int.floor (withdrawAmountPerWallet 1 * LAMPORTS_PER_SOL),
            status := .pending, signature := none, error := none },
          { id := taskId 2, walletIndex := 2, walletAddress := "walletC",
            amount := Int.floor (withdrawAmountPerWallet 1 * LAMPORTS_PER_SOL),
            status := .pending, signature := none, error := none }] := rfl

theorem demo_events_ok :
    (handleFund demoEnvOk demoInputs demoState).events
      = [.pausePolling, .feeTransfer 15142500, .deposit 3028500000,
          .withdrawCall 1009500000 "walletA", .withdrawCall 1009500000 "walletB",
          .withdrawCall 1009500000 "walletC", .resumePolling, .refreshAllBalances] := by
  rw [handleFund_eq_shieldOk demoEnvOk demoInputs demoState ⟨rfl, demo_canFund⟩ rfl
    demo_needsShielding rfl rfl]
  rw [distributePhase_events, demo_tasks, demo_fee_floor, demo_shield_floor]
  simp [demo_gross_floor]

/-! ### Shared helpers for the claim theorems -/

theorem bool_not_false {b : Bool} (h : ¬(b = false)) : b = true := by
  revert h; cases b <;> simp

theorem fatalExit_no_withdraw (s : BooState) (trace0 : List BooState) (ev0 : List Event)
    (h : ∀ lam addr, Event.withdrawCall lam addr ∉ ev0) :
    ∀ lam addr, Event.withdrawCall lam addr ∉ (fatalExit s trace0 ev0).events := by
  intro lam addr hmem
  simp only [fatalExit, List.mem_append] at hmem
  rcases hmem with hmem | hmem
  · exact h lam addr hmem
  · simp at hmem

theorem withdrawMap_no_fee (tasks : List FundingTask) :
    ∀ lam, Event.feeTransfer lam
      ∉ tasks.map fun t => Event.withdrawCall t.amount t.walletAddress := by
  intro lam h
  rcases List.mem_map.1 h with ⟨t, _, ht⟩
  simp at ht

theorem withdrawMap_no_deposit (tasks : List FundingTask) :
    ∀ lam, Event.deposit lam
      ∉ tasks.map fun t => Event.withdrawCall t.amount t.walletAddress := by
  intro lam h
  rcases List.mem_map.1 h with ⟨t, _, ht⟩
  simp at ht

theorem fatalExit_polling (s : BooState) (trace0 : List BooState) (ev0 : List Event) :
    Event.resumePolling ∈ (fatalExit s trace0 ev0).events ∧
    Event.refreshAllBalances ∈ (fatalExit s trace0 ev0).events := by
  simp [fatalExit]

theorem distributePhase_polling (env : RunEnv) (inp : RunInputs) (s : BooState)
    (trace0 : List BooState) (ev0 : List Event) :
    Event.resumePolling ∈ (distributePhase env inp s trace0 ev0).events ∧
    Event.refreshAllBalances ∈ (distributePhase env inp s trace0 ev0).events := by
  rw [distributePhase_events]
  simp

theorem distributePhase_withdraw_amount (env : RunEnv) (inp : RunInputs) (s : BooState)
    (trace0 : List BooState) (ev0 : List Event)
    (h0 : ∀ lam addr, Event.withdrawCall lam addr ∉ ev0) :
    ∀ lam addr,
      Event.withdrawCall lam addr ∈ (distributePhase env inp s trace0 ev0).events →
      lam = Int.floor (withdrawAmountPerWallet inp.amountNum * LAMPORTS_PER_SOL) := by
  intro lam addr hmem
  rw [distributePhase_events] at hmem
  rcases List.mem_append.1 hmem with hmem | hmem
  · rcases List.mem_append.1 hmem with hmem | hmem
    · exact absurd hmem (h0 lam addr)
    · rcases List.mem_map.1 hmem with ⟨t, ht, heq⟩
      have hamt := mkTasks_amount inp.wallets inp.selected inp.amountNum t ht
      simp only [Event.withdrawCall.injEq] at heq
      rw [← heq.1, hamt]
  · simp at hmem

theorem distributePhase_filter_withdraw (env : RunEnv) (inp : RunInputs) (s : BooState)
    (trace0 : List BooState) (ev0 : List Event)
    (h0 : ev0.filter isWithdrawCall = []) :
    (distributePhase env inp s trace0 ev0).events.filter isWithdrawCall
      = (mkTasks inp.wallets inp.selected inp.amountNum).map
          fun t => Event.withdrawCall t.amount t.walletAddress := by
  rw [distributePhase_events, List.filter_append, List.filter_append, h0]
  have hmap : ((mkTasks inp.wallets inp.selected inp.amountNum).map
      fun t => Event.withdrawCall t.amount t.walletAddress).filter isWithdrawCall
      = (mkTasks inp.wallets inp.selected inp.amountNum).map
          fun t => Event.withdrawCall t.amount t.walletAddress := by
    rw [List.filter_eq_self]
    intro e he
    rcases List.mem_map.1 he with ⟨t, _, rfl⟩
    rfl
  rw [hmap]
  simp [isWithdrawCall]

theorem fatalExit_states (s : BooState) (trace0 : List BooState) (ev0 : List Event) :
    (fatalExit s trace0 ev0).states
      = trace0 ++ [{ s with fundingStatus := .error },
          { s with fundingStatus := .error, isShielding := false }] := rfl

theorem distributePhase_not_shielding (env : RunEnv) (inp : RunInputs) (s : BooState)
    (trace0 : List BooState) (ev0 : List Event)
    (hs : s.fundingStatus ≠ .shielding)
    (htr : ∀ x ∈ trace0, x.fundingStatus ≠ .shielding) :
    ∀ st ∈ (distributePhase env inp s trace0 ev0).states,
      st.fundingStatus ≠ .shielding := by
  obtain ⟨n, hmap⟩ := distributePhase_status_map env inp s trace0 ev0
  intro st hst hshield
  have hmem : st.fundingStatus
      ∈ (distributePhase env inp s trace0 ev0).states.map BooState.fundingStatus :=
    List.mem_map.2 ⟨st, hst, rfl⟩
  rw [hmap] at hmem
  rcases List.mem_append.1 hmem with h1 | hD
  · rcases List.mem_append.1 h1 with h2 | hC
    · rcases List.mem_append.1 h2 with hA | hB
      · rcases List.mem_map.1 hA with ⟨y, hy, hyx⟩
        exact htr y hy (hyx.trans hshield)
      · simp only [List.mem_cons, List.not_mem_nil, or_false] at hB
        rcases hB with h | h | h
        · exact hs (h.symm.trans hshield)
        · exact FundingStatus.noConfusion (h.symm.trans hshield)
        · exact FundingStatus.noConfusion (h.symm.trans hshield)
    · rw [List.mem_replicate] at hC
      exact FundingStatus.noConfusion (hC.2.symm.trans hshield)
  · simp only [List.mem_cons, List.not_mem_nil, or_false] at hD
    rcases hD with h | h
    · exact FundingStatus.noConfusion (h.symm.trans hshield)
    · exact FundingStatus.noConfusion (h.symm.trans hshield)

/-- On any run started from an idle store, no state snapshot ever carries the
run status `shielding`. -/
theorem handleFund_states_not_shielding (env : RunEnv) (inp : RunInputs) (s0 : BooState)
    (h0 : s0.fundingStatus = .idle) :
    ∀ st ∈ (handleFund env inp s0).states, st.fundingStatus ≠ .shielding := by
  have h0ne : s0.fundingStatus ≠ .shielding := by rw [h0]; simp
  by_cases hg : inp.hasWalletSet = true ∧ canFund inp
  case neg =>
    rw [handleFund_eq_guard env inp s0 hg]
    intro st hst
    simp at hst
  by_cases hi : env.initOk = false
  · rw [handleFund_eq_initFail env inp s0 hg hi]
    intro st hst
    simp at hst
  have hi' : env.initOk = true := bool_not_false hi
  by_cases hns : needsShielding inp.shieldedBalance
    (totalWithFees inp.amountNum inp.selected.length)
  · by_cases hfee : env.feeTransferOk = false
    · rw [handleFund_eq_feeFail env inp s0 hg hi' hns hfee]
      intro st hst
      rw [fatalExit_states] at hst
      simp only [List.mem_append, List.mem_cons, List.mem_singleton,
        List.not_mem_nil, or_false] at hst
      rcases hst with rfl | rfl | rfl
      · exact h0ne
      · simp
      · simp
    have hfee' : env.feeTransferOk = true := bool_not_false hfee
    by_cases hdep : env.depositOk = false
    · rw [handleFund_eq_depositFail env inp s0 hg hi' hns hfee' hdep]
      intro st hst
      rw [fatalExit_states] at hst
      simp only [List.mem_append, List.mem_cons, List.mem_singleton,
        List.not_mem_nil, or_false] at hst
      rcases hst with rfl | rfl | rfl
      · exact h0ne
      · simp
      · simp
    have hdep' : env.depositOk = true := bool_not_false hdep
    rw [handleFund_eq_shieldOk env inp s0 hg hi' hns hfee' hdep']
    refine distributePhase_not_shielding _ _ _ _ _ h0ne ?_
    intro x hx
    simp only [List.mem_cons, List.not_mem_nil, or_false] at hx
    rcases hx with rfl | rfl
    · exact h0ne
    · exact h0ne
  · rw [handleFund_eq_noShield env inp s0 hg hi' hns]
    refine distributePhase_not_shielding _ _ _ _ _ h0ne ?_
    intro x hx
    simp only [List.mem_singleton] at hx
    subst hx
    exact h0ne

theorem distributePhase_status_pairwise (env : RunEnv) (inp : RunInputs) (s : BooState)
    (trace0 : List BooState) (ev0 : List Event)
    (hs : s.fundingStatus = .idle)
    (htr : ∀ x ∈ trace0, x.fundingStatus = .idle) :
    List.Pairwise (fun a b => statusRank a ≤ statusRank b)
      (FundingStatus.idle ::
        (distributePhase env inp s trace0 ev0).states.map BooState.fundingStatus) := by
  obtain ⟨n, hmap⟩ := distributePhase_status_map env inp s trace0 ev0
  rw [hmap, hs]
  have heq :
      (FundingStatus.idle :: (trace0.map BooState.fundingStatus ++ [FundingStatus.idle]))
        ++ (FundingStatus.distributing :: FundingStatus.distributing ::
            List.replicate n .distributing)
        ++ [FundingStatus.complete, FundingStatus.complete]
      = FundingStatus.idle :: (trace0.map BooState.fundingStatus
          ++ [FundingStatus.idle, .distributing, .distributing]
          ++ List.replicate n .distributing ++ [.complete, .complete]) := by
    simp
  rw [← heq]
  apply pairwise_rank_blocks FundingStatus.idle FundingStatus.distributing
    FundingStatus.complete
  · intro x hx
    simp only [List.mem_cons, List.mem_append, List.mem_singleton,
      List.not_mem_nil, or_false] at hx
    rcases hx with rfl | hx | rfl
    · rfl
    · rcases List.mem_map.1 hx with ⟨y, hy, hyx⟩
      rw [← hyx]
      exact htr y hy
    · rfl
  · intro x hx
    simp only [List.mem_cons, List.mem_replicate] at hx
    rcases hx with rfl | rfl | hx
    · rfl
    · rfl
    · exact hx.2
  · intro x hx
    simp only [List.mem_cons, List.not_mem_nil, or_false] at hx
    rcases hx with rfl | rfl
    · rfl
    · rfl
  · decide
  · decide
  · decide

/-! ### Claim theorems -/

/-- C1: if the protocol-fee transfer or the deposit call fails during the
shielding phase of a funding run, the whole run aborts with run status
`error` before any withdrawal is attempted, and no funding tasks are
created — the task list is unchanged from before the run started. -/
theorem C1_shielding_failure_aborts (env : RunEnv) (inp : RunInputs) (s0 : BooState)
    (hg : inp.hasWalletSet = true) (hc : canFund inp) (hi : env.initOk = true)
    (hns : needsShielding inp.shieldedBalance
      (totalWithFees inp.amountNum inp.selected.length))
    (hfail : env.feeTransferOk = false ∨ env.depositOk = false) :
    (handleFund env inp s0).final.fundingStatus = .error ∧
    (handleFund env inp s0).final.fundingTasks = s0.fundingTasks ∧
    (handleFund env inp s0).taskStates = [] ∧
    ∀ lam addr, Event.withdrawCall lam addr ∉ (handleFund env inp s0).events := by
  by_cases hfee : env.feeTransferOk = false
  · rw [handleFund_eq_feeFail env inp s0 ⟨hg, hc⟩ hi hns hfee]
    exact ⟨rfl, rfl, rfl,
      fatalExit_no_withdraw _ _ _ (by intro lam addr h; simp at h)⟩
  · have hfee' : env.feeTransferOk = true := bool_not_false hfee
    have hdep : env.depositOk = false := by
      rcases hfail with h | h
      · exact absurd h hfee
      · exact h
    rw [handleFund_eq_depositFail env inp s0 ⟨hg, hc⟩ hi hns hfee' hdep]
    exact ⟨rfl, rfl, rfl,
      fatalExit_no_withdraw _ _ _ (by intro lam addr h; simp at h)⟩

/-- Witness for C1: a concrete three-recipient run whose deposit call throws
aborts with status `error`, an unchanged (empty) task list and no withdraw
event. -/
theorem C1_witness :
    demoInputs.hasWalletSet = true ∧ canFund demoInputs ∧
    demoEnvDepositFail.initOk = true ∧
    needsShielding demoInputs.shieldedBalance
      (totalWithFees demoInputs.amountNum demoInputs.selected.length) ∧
    demoEnvDepositFail.depositOk = false ∧
    (handleFund demoEnvDepositFail demoInputs demoState).final.fundingStatus = .error ∧
    (handleFund demoEnvDepositFail demoInputs demoState).final.fundingTasks
      = demoState.fundingTasks ∧
    (handleFund demoEnvDepositFail demoInputs demoState).taskStates = [] := by
  have h := C1_shielding_failure_aborts demoEnvDepositFail demoInputs demoState rfl
    demo_canFund rfl demo_needsShielding (Or.inr rfl)
  exact ⟨rfl, demo_canFund, rfl, demo_needsShielding, rfl, h.1, h.2.1, h.2.2.1⟩

/-- C2: during the distributing phase a failed withdrawal marks only its own
task `error` with the failure detail, the remaining recipients are still
attempted in selection order, and the run ends with status `complete`. -/
theorem C2_partial_failure (env : RunEnv) (inp : RunInputs) (s0 : BooState)
    (hg : inp.hasWalletSet = true) (hc : canFund inp) (hi : env.initOk = true)
    (hnodup : inp.selected.Nodup)
    (hshield : needsShielding inp.shieldedBalance
        (totalWithFees inp.amountNum inp.selected.length) →
      env.feeTransferOk = true ∧ env.depositOk = true) :
    (handleFund env inp s0).final.fundingStatus = .complete ∧
    (handleFund env inp s0).final.fundingTasks
      = finalTasks env 0 (mkTasks inp.wallets inp.selected inp.amountNum) ∧
    (∀ k, (finalTasks env 0 (mkTasks inp.wallets inp.selected inp.amountNum)).get? k
      = ((mkTasks inp.wallets inp.selected inp.amountNum).get? k).map fun t =>
          match env.withdrawResult k with
          | .ok sig => { t with status := .success, signature := some sig }
          | .error e => { t with status := .error, error := some e }) ∧
    (handleFund env inp s0).events.filter isWithdrawCall
      = (mkTasks inp.wallets inp.selected inp.amountNum).map
          fun t => Event.withdrawCall t.amount t.walletAddress := by
  have hget : ∀ k,
      (finalTasks env 0 (mkTasks inp.wallets inp.selected inp.amountNum)).get? k
        = ((mkTasks inp.wallets inp.selected inp.amountNum).get? k).map fun t =>
            match env.withdrawResult k with
            | .ok sig => { t with status := .success, signature := some sig }
            | .error e => { t with status := .error, error := some e } := by
    intro k
    have h := finalTasks_get? env (mkTasks inp.wallets inp.selected inp.amountNum) 0 k
    simpa using h
  by_cases hns : needsShielding inp.shieldedBalance
    (totalWithFees inp.amountNum inp.selected.length)
  · obtain ⟨hfee, hdep⟩ := hshield hns
    rw [handleFund_eq_shieldOk env inp s0 ⟨hg, hc⟩ hi hns hfee hdep]
    exact ⟨distributePhase_final_status _ _ _ _ _,
      distributePhase_final_tasks _ _ _ _ _ hnodup, hget,
      distributePhase_filter_withdraw _ _ _ _ _ rfl⟩
  · rw [handleFund_eq_noShield env inp s0 ⟨hg, hc⟩ hi hns]
    exact ⟨distributePhase_final_status _ _ _ _ _,
      distributePhase_final_tasks _ _ _ _ _ hnodup, hget,
      distributePhase_filter_withdraw _ _ _ _ _ rfl⟩

/-- Witness for C2: recipients [A, B, C] with only B's withdrawal failing:
the final store shows A = success, B = error, C = success, the withdraw
calls happen in input order, and the run ends `complete`. -/
theorem C2_witness :
    canFund demoInputs ∧ demoInputs.selected.Nodup ∧
    (handleFund demoEnvBFails demoInputs demoState).final.fundingStatus = .complete ∧
    (handleFund demoEnvBFails demoInputs demoState).final.fundingTasks
      = finalTasks demoEnvBFails 0
          (mkTasks demoInputs.wallets demoInputs.selected demoInputs.amountNum) ∧
    (finalTasks demoEnvBFails 0
        (mkTasks demoInputs.wallets demoInputs.selected demoInputs.amountNum)).map
        FundingTask.status = [.success, .error, .success] ∧
    (handleFund demoEnvBFails demoInputs demoState).events.filter isWithdrawCall
      = [.withdrawCall (Int.floor (withdrawAmountPerWallet 1 * LAMPORTS_PER_SOL)) "walletA",
          .withdrawCall (Int.floor (withdrawAmountPerWallet 1 * LAMPORTS_PER_SOL)) "walletB",
          .withdrawCall (Int.floor (withdrawAmountPerWallet 1 * LAMPORTS_PER_SOL)) "walletC"] := by
  have h := C2_partial_failure demoEnvBFails demoInputs demoState rfl demo_canFund rfl
    (by decide) (fun _ => ⟨rfl, rfl⟩)
  refine ⟨demo_canFund, by decide, h.1, h.2.1, ?_, ?_⟩
  · rw [demo_tasks]
    rfl
  · rw [h.2.2.2, demo_tasks]
    rfl

/-- C3: every withdraw call of a funding run requests exactly
`amountPerWallet + amountPerWallet × withdrawalFeeRate + flatRentFee` (in
lamports, floored), and under the spec's model of the external service's
fee deduction the recipient receives exactly `amountPerWallet`. -/
theorem C3_withdrawal_gross (env : RunEnv) (inp : RunInputs) (s0 : BooState) :
    (∀ lam addr, Event.withdrawCall lam addr ∈ (handleFund env inp s0).events →
      lam = Int.floor (withdrawAmountPerWallet inp.amountNum * LAMPORTS_PER_SOL)) ∧
    (∀ a : ℚ, withdrawAmountPerWallet a
      = a + a * WITHDRAWAL_FEE_RATE + WITHDRAWAL_RENT) ∧
    (∀ a : ℚ,
      serviceNet (withdrawAmountPerWallet a) WITHDRAWAL_FEE_RATE WITHDRAWAL_RENT = a) := by
  refine ⟨?_, ?_, ?_⟩
  · intro lam addr hmem
    by_cases hg : inp.hasWalletSet = true ∧ canFund inp
    case neg =>
      rw [handleFund_eq_guard env inp s0 hg] at hmem
      simp at hmem
    by_cases hi : env.initOk = false
    · rw [handleFund_eq_initFail env inp s0 hg hi] at hmem
      simp at hmem
    have hi' : env.initOk = true := bool_not_false hi
    by_cases hns : needsShielding inp.shieldedBalance
      (totalWithFees inp.amountNum inp.selected.length)
    · by_cases hfee : env.feeTransferOk = false
      · rw [handleFund_eq_feeFail env inp s0 hg hi' hns hfee] at hmem
        exact absurd hmem (fatalExit_no_withdraw _ _ _
          (by intro lam addr h; simp at h) lam addr)
      have hfee' : env.feeTransferOk = true := bool_not_false hfee
      by_cases hdep : env.depositOk = false
      · rw [handleFund_eq_depositFail env inp s0 hg hi' hns hfee' hdep] at hmem
        exact absurd hmem (fatalExit_no_withdraw _ _ _
          (by intro lam addr h; simp at h) lam addr)
      have hdep' : env.depositOk = true := bool_not_false hdep
      rw [handleFund_eq_shieldOk env inp s0 hg hi' hns hfee' hdep'] at hmem
      exact distributePhase_withdraw_amount _ _ _ _ _
        (by intro lam addr h; simp at h) lam addr hmem
    · rw [handleFund_eq_noShield env inp s0 hg hi' hns] at hmem
      exact distributePhase_withdraw_amount _ _ _ _ _
        (by intro lam addr h; simp at h) lam addr hmem
  · intro a
    unfold withdrawAmountPerWallet perWalletFees
    ring
  · intro a
    have hf : (1 : ℚ) + WITHDRAWAL_FEE_RATE ≠ 0 := by norm_num [WITHDRAWAL_FEE_RATE]
    unfold serviceNet withdrawAmountPerWallet perWalletFees
    rw [div_eq_iff hf]
    ring

/-- Witness for C3: in the concrete run the withdraw call for wallet A
requests 1009500000 lamports, which is the floored gross, and the
spec-modelled service deduction returns exactly 1 SOL. -/
theorem C3_witness :
    Event.withdrawCall 1009500000 "walletA"
      ∈ (handleFund demoEnvOk demoInputs demoState).events ∧
    (1009500000 : ℤ)
      = Int.floor (withdrawAmountPerWallet demoInputs.amountNum * LAMPORTS_PER_SOL) ∧
    serviceNet (withdrawAmountPerWallet 1) WITHDRAWAL_FEE_RATE WITHDRAWAL_RENT = 1 := by
  have hmem : Event.withdrawCall 1009500000 "walletA"
      ∈ (handleFund demoEnvOk demoInputs demoState).events := by
    rw [demo_events_ok]
    simp
  exact ⟨hmem,
    (C3_withdrawal_gross demoEnvOk demoInputs demoState).1 1009500000 "walletA" hmem,
    (C3_withdrawal_gross demoEnvOk demoInputs demoState).2.2 1⟩

/-- C5: every funding task created during a run starts `pending` and every
consecutive pair of task-store snapshots only moves statuses forward along
pending → processing → success/error; terminal statuses never change. -/
theorem C5_task_monotonic (env : RunEnv) (inp : RunInputs) (s0 : BooState)
    (hnodup : inp.selected.Nodup) :
    List.Chain' taskForward (handleFund env inp s0).taskStates ∧
    ∀ l ∈ (handleFund env inp s0).taskStates.head?, ∀ t ∈ l, t.status = .pending := by
  by_cases hg : inp.hasWalletSet = true ∧ canFund inp
  case neg =>
    rw [handleFund_eq_guard env inp s0 hg]
    exact ⟨List.chain'_nil, by simp⟩
  by_cases hi : env.initOk = false
  · rw [handleFund_eq_initFail env inp s0 hg hi]
    exact ⟨List.chain'_nil, by simp⟩
  have hi' : env.initOk = true := bool_not_false hi
  by_cases hns : needsShielding inp.shieldedBalance
    (totalWithFees inp.amountNum inp.selected.length)
  · by_cases hfee : env.feeTransferOk = false
    · rw [handleFund_eq_feeFail env inp s0 hg hi' hns hfee]
      exact ⟨List.chain'_nil, by simp [fatalExit]⟩
    have hfee' : env.feeTransferOk = true := bool_not_false hfee
    by_cases hdep : env.depositOk = false
    · rw [handleFund_eq_depositFail env inp s0 hg hi' hns hfee' hdep]
      exact ⟨List.chain'_nil, by simp [fatalExit]⟩
    have hdep' : env.depositOk = true := bool_not_false hdep
    rw [handleFund_eq_shieldOk env inp s0 hg hi' hns hfee' hdep']
    refine ⟨distributePhase_chain _ _ _ _ _ hnodup, ?_⟩
    rw [distributePhase_eq]
    intro l hl t ht
    simp only [List.head?_cons, Option.mem_def, Option.some.injEq] at hl
    subst hl
    exact mkTasks_status _ _ _ t ht
  · rw [handleFund_eq_noShield env inp s0 hg hi' hns]
    refine ⟨distributePhase_chain _ _ _ _ _ hnodup, ?_⟩
    rw [distributePhase_eq]
    intro l hl t ht
    simp only [List.head?_cons, Option.mem_def, Option.some.injEq] at hl
    subst hl
    exact mkTasks_status _ _ _ t ht

/-- Witness for C5: the concrete run with a failing middle withdrawal has a
forward-only task-store trace. -/
theorem C5_witness :
    demoInputs.selected.Nodup ∧
    List.Chain' taskForward (handleFund demoEnvBFails demoInputs demoState).taskStates :=
  ⟨by decide, (C5_task_monotonic demoEnvBFails demoInputs demoState (by decide)).1⟩

/-- C6: the amount to shield equals `max(0, totalRequiredWithFees −
currentShieldedBalance)`: zero when the balance covers the total, the
difference otherwise, and never negative. -/
theorem C6_shielding_need (tot bal : ℚ) :
    amountToShield tot bal = max 0 (tot - bal) ∧
    (tot ≤ bal → amountToShield tot bal = 0) ∧
    (bal < tot → amountToShield tot bal = tot - bal) ∧
    0 ≤ amountToShield tot bal := by
  refine ⟨rfl, ?_, ?_, le_max_left 0 _⟩
  · intro h
    rw [amountToShield, max_eq_left (by linarith)]
  · intro h
    rw [amountToShield, max_eq_right (by linarith)]

/-- Witness for C6: at (total, balance) = (3, 5) the need is 0; at (5, 3)
it is exactly the difference 2. -/
theorem C6_witness :
    ((3 : ℚ) ≤ 5 ∧ amountToShield 3 5 = 0) ∧
    ((3 : ℚ) < 5 ∧ amountToShield 5 3 = 2) := by
  constructor
  · exact ⟨by norm_num, (C6_shielding_need 3 5).2.1 (by norm_num)⟩
  · refine ⟨by norm_num, ?_⟩
    rw [(C6_shielding_need 5 3).2.2.1 (by norm_num)]
    norm_num

/-- Counterexample for C7: with amountPerWallet = 1 SOL the per-withdrawal
gross computed by the code is 1.0095 SOL, not ≈ 1.0115 SOL as the claim
states (the difference, 0.002 SOL, exceeds any rounding of the displayed
four decimals). -/
theorem C7_counterexample :
    withdrawAmountPerWallet 1 = 1.0095 ∧
    withdrawAmountPerWallet 1 ≠ 1.0115 ∧
    ¬((1.0115 : ℚ) - withdrawAmountPerWallet 1 ≤ 0.0005) := by
  have h : withdrawAmountPerWallet 1 = 1.0095 := by
    norm_num [withdrawAmountPerWallet, perWalletFees, WITHDRAWAL_FEE_RATE, WITHDRAWAL_RENT]
  refine ⟨h, ?_, ?_⟩
  · rw [h]; norm_num
  · rw [h]; norm_num

/-- C7 (amended): in the spec's example scenario the orchestrator computes
totalWithFees = 3.0285 SOL, amountToShield = 3.0285 SOL, protocolFee =
0.0151425 SOL, performs one fee transfer, one deposit and three
withdrawals, and each withdrawal's gross is 1.0095 SOL (1009500000
lamports), which the service model turns into exactly 1 SOL received. -/
theorem C7_example_scenario :
    totalWithFees demoInputs.amountNum demoInputs.selected.length = 3.0285 ∧
    amountToShield (totalWithFees demoInputs.amountNum demoInputs.selected.length)
      demoInputs.shieldedBalance = 3.0285 ∧
    protocolFee (amountToShield
      (totalWithFees demoInputs.amountNum demoInputs.selected.length)
      demoInputs.shieldedBalance) = 0.0151425 ∧
    withdrawAmountPerWallet demoInputs.amountNum = 1.0095 ∧
    ((handleFund demoEnvOk demoInputs demoState).events.filter isFeeTransfer).length = 1 ∧
    ((handleFund demoEnvOk demoInputs demoState).events.filter isDeposit).length = 1 ∧
    (handleFund demoEnvOk demoInputs demoState).events.filter isWithdrawCall
      = [.withdrawCall 1009500000 "walletA", .withdrawCall 1009500000 "walletB",
          .withdrawCall 1009500000 "walletC"] ∧
    Event.feeTransfer 15142500 ∈ (handleFund demoEnvOk demoInputs demoState).events ∧
    Event.deposit 3028500000 ∈ (handleFund demoEnvOk demoInputs demoState).events ∧
    serviceNet 1.0095 WITHDRAWAL_FEE_RATE WITHDRAWAL_RENT = 1 := by
  refine ⟨demo_totalWithFees, demo_ats, demo_protocolFee, demo_gross, ?_, ?_, ?_, ?_, ?_, ?_⟩
  · rw [demo_events_ok]; rfl
  · rw [demo_events_ok]; rfl
  · rw [demo_events_ok]; rfl
  · rw [demo_events_ok]; simp
  · rw [demo_events_ok]; simp
  · norm_num [serviceNet, WITHDRAWAL_FEE_RATE, WITHDRAWAL_RENT]

/-- Counterexample for C4: a run that needs a top-up (shielded balance 0,
required 3.0285) performs the deposit, yet its run status never takes the
value `shielding`: the store status goes straight from `idle` to
`distributing` (the shielding phase is tracked only by the separate
`isShielding` flag). -/
theorem C4_counterexample :
    needsShielding demoInputs.shieldedBalance
      (totalWithFees demoInputs.amountNum demoInputs.selected.length) ∧
    Event.deposit 3028500000 ∈ (handleFund demoEnvOk demoInputs demoState).events ∧
    ∀ st ∈ (handleFund demoEnvOk demoInputs demoState).states,
      st.fundingStatus ≠ FundingStatus.shielding := by
  refine ⟨demo_needsShielding, ?_, ?_⟩
  · rw [demo_events_ok]
    simp
  · exact handleFund_states_not_shielding demoEnvOk demoInputs demoState rfl

/-- C4 (amended): starting from an idle store, the run status follows
idle → distributing → complete/error and never takes the value `shielding`
(the shielding phase is signalled only by the separate `isShielding` flag);
whenever shieldedBalance ≥ totalWithFees at the start, no protocol-fee
transfer and no deposit are performed and the run goes straight to
`distributing` and ends `complete`. -/
theorem C4_status_machine (env : RunEnv) (inp : RunInputs) (s0 : BooState)
    (hg : inp.hasWalletSet = true) (hc : canFund inp) (hi : env.initOk = true)
    (h0 : s0.fundingStatus = .idle) :
    (∀ st ∈ (handleFund env inp s0).states, st.fundingStatus ≠ .shielding) ∧
    List.Pairwise (fun a b => statusRank a ≤ statusRank b)
      (s0.fundingStatus :: (handleFund env inp s0).states.map BooState.fundingStatus) ∧
    ((handleFund env inp s0).final.fundingStatus = .complete ∨
      (handleFund env inp s0).final.fundingStatus = .error) ∧
    (¬needsShielding inp.shieldedBalance
        (totalWithFees inp.amountNum inp.selected.length) →
      (∀ lam, Event.feeTransfer lam ∉ (handleFund env inp s0).events) ∧
      (∀ lam, Event.deposit lam ∉ (handleFund env inp s0).events) ∧
      (handleFund env inp s0).final.fundingStatus = .complete ∧
      FundingStatus.distributing
        ∈ (handleFund env inp s0).states.map BooState.fundingStatus) := by
  refine ⟨handleFund_states_not_shielding env inp s0 h0, ?_⟩
  rw [h0]
  by_cases hns : needsShielding inp.shieldedBalance
    (totalWithFees inp.amountNum inp.selected.length)
  · by_cases hfee : env.feeTransferOk = false
    · rw [handleFund_eq_feeFail env inp s0 ⟨hg, hc⟩ hi hns hfee]
      refine ⟨?_, Or.inr rfl, fun hnotns => absurd hns hnotns⟩
      rw [fatalExit_states]
      simp only [List.map_append, List.map_cons, List.map_nil, h0,
        List.cons_append, List.nil_append]
      decide
    · have hfee' : env.feeTransferOk = true := bool_not_false hfee
      by_cases hdep : env.depositOk = false
      · rw [handleFund_eq_depositFail env inp s0 ⟨hg, hc⟩ hi hns hfee' hdep]
        refine ⟨?_, Or.inr rfl, fun hnotns => absurd hns hnotns⟩
        rw [fatalExit_states]
        simp only [List.map_append, List.map_cons, List.map_nil, h0,
          List.cons_append, List.nil_append]
        decide
      · have hdep' : env.depositOk = true := bool_not_false hdep
        rw [handleFund_eq_shieldOk env inp s0 ⟨hg, hc⟩ hi hns hfee' hdep']
        refine ⟨?_, Or.inl (distributePhase_final_status _ _ _ _ _),
          fun hnotns => absurd hns hnotns⟩
        refine distributePhase_status_pairwise _ _ _ _ _ h0 ?_
        intro x hx
        simp only [List.mem_cons, List.not_mem_nil, or_false] at hx
        rcases hx with rfl | rfl
        · exact h0
        · exact h0
  · rw [handleFund_eq_noShield env inp s0 ⟨hg, hc⟩ hi hns]
    refine ⟨?_, Or.inl (distributePhase_final_status _ _ _ _ _), fun _ => ⟨?_, ?_, ?_, ?_⟩⟩
    · refine distributePhase_status_pairwise _ _ _ _ _ h0 ?_
      intro x hx
      simp only [List.mem_cons, List.not_mem_nil, or_false] at hx
      rcases hx with rfl
      exact h0
    · intro lam h
      rw [distributePhase_events] at h
      rcases List.mem_append.1 h with h | h
      · rcases List.mem_append.1 h with h | h
        · simp at h
        · exact withdrawMap_no_fee _ lam h
      · simp at h
    · intro lam h
      rw [distributePhase_events] at h
      rcases List.mem_append.1 h with h | h
      · rcases List.mem_append.1 h with h | h
        · simp at h
        · exact withdrawMap_no_deposit _ lam h
      · simp at h
    · exact distributePhase_final_status _ _ _ _ _
    · obtain ⟨n, hmap⟩ := distributePhase_status_map env inp
        { s0 with isShielding := false } [{ s0 with isShielding := false }] [.pausePolling]
      rw [hmap]
      simp

/-- Witness for C4 (amended): the concrete successful run has a
rank-monotone status trace that never contains `shielding`. -/
theorem C4_witness :
    demoState.fundingStatus = .idle ∧
    (∀ st ∈ (handleFund demoEnvOk demoInputs demoState).states,
      st.fundingStatus ≠ .shielding) ∧
    List.Pairwise (fun a b => statusRank a ≤ statusRank b)
      (demoState.fundingStatus
        :: (handleFund demoEnvOk demoInputs demoState).states.map BooState.fundingStatus) := by
  have h := C4_status_machine demoEnvOk demoInputs demoState rfl demo_canFund rfl rfl
  exact ⟨rfl, h.1, h.2.1⟩

/-- Counterexample for C8: when the one-time initialization is rejected the
run pauses and resumes polling but never triggers the final balance
refresh, contradicting the claim that every exit path refreshes. -/
theorem C8_counterexample :
    Event.pausePolling ∈ (handleFund demoEnvInitFail demoInputs demoState).events ∧
    Event.resumePolling ∈ (handleFund demoEnvInitFail demoInputs demoState).events ∧
    Event.refreshAllBalances ∉ (handleFund demoEnvInitFail demoInputs demoState).events := by
  rw [handleFund_eq_initFail demoEnvInitFail demoInputs demoState ⟨rfl, demo_canFund⟩ rfl]
  refine ⟨by simp, by simp, by simp⟩

/-- C8 (amended): every started run resumes the paused polling, and on every
exit path except a rejected one-time initialization it also triggers the
final refresh of all balances. -/
theorem C8_polling_resume (env : RunEnv) (inp : RunInputs) (s0 : BooState)
    (hg : inp.hasWalletSet = true) (hc : canFund inp) :
    Event.resumePolling ∈ (handleFund env inp s0).events ∧
    (env.initOk = true → Event.refreshAllBalances ∈ (handleFund env inp s0).events) := by
  by_cases hi : env.initOk = false
  · rw [handleFund_eq_initFail env inp s0 ⟨hg, hc⟩ hi]
    refine ⟨by simp, ?_⟩
    intro h
    rw [h] at hi
    cases hi
  · have hi' : env.initOk = true := bool_not_false hi
    by_cases hns : needsShielding inp.shieldedBalance
      (totalWithFees inp.amountNum inp.selected.length)
    · by_cases hfee : env.feeTransferOk = false
      · rw [handleFund_eq_feeFail env inp s0 ⟨hg, hc⟩ hi' hns hfee]
        exact ⟨(fatalExit_polling _ _ _).1, fun _ => (fatalExit_polling _ _ _).2⟩
      have hfee' : env.feeTransferOk = true := bool_not_false hfee
      by_cases hdep : env.depositOk = false
      · rw [handleFund_eq_depositFail env inp s0 ⟨hg, hc⟩ hi' hns hfee' hdep]
        exact ⟨(fatalExit_polling _ _ _).1, fun _ => (fatalExit_polling _ _ _).2⟩
      have hdep' : env.depositOk = true := bool_not_false hdep
      rw [handleFund_eq_shieldOk env inp s0 ⟨hg, hc⟩ hi' hns hfee' hdep']
      exact ⟨(distributePhase_polling _ _ _ _ _).1,
        fun _ => (distributePhase_polling _ _ _ _ _).2⟩
    · rw [handleFund_eq_noShield env inp s0 ⟨hg, hc⟩ hi' hns]
      exact ⟨(distributePhase_polling _ _ _ _ _).1,
        fun _ => (distributePhase_polling _ _ _ _ _).2⟩

/-- Witness for C8 (amended): the successful concrete run both resumes
polling and refreshes all balances. -/
theorem C8_witness :
    demoInputs.hasWalletSet = true ∧ canFund demoInputs ∧
    Event.resumePolling ∈ (handleFund demoEnvOk demoInputs demoState).events ∧
    Event.refreshAllBalances ∈ (handleFund demoEnvOk demoInputs demoState).events := by
  have h := C8_polling_resume demoEnvOk demoInputs demoState rfl demo_canFund
  exact ⟨rfl, demo_canFund, h.1, h.2 rfl⟩

/-- C9: `getBalance` returns a zero amount rather than throwing when the
account has no UTXOs, when the UTXO fetch fails, or when the encryption
service cannot be set up; the only throw it can surface is the SDK-load
(I/O) failure. -/
theorem C9_getBalance_contract (env : ClientEnv) (hb : env.browser = true) :
    (env.sdkLoadOk = true → env.utxos = .ok [] → PCgetBalance env = .ok 0) ∧
    (env.sdkLoadOk = true → ∀ msg, env.utxos = .error msg → PCgetBalance env = .ok 0) ∧
    (env.sdkLoadOk = true → env.encInitOk = false → PCgetBalance env = .ok 0) ∧
    (∀ e, PCgetBalance env = .error e →
      env.sdkLoadOk = false ∧ e = .sdkLoadFailed) := by
  have hb' : ¬(env.browser = false) := by simp [hb]
  refine ⟨?_, ?_, ?_, ?_⟩
  · intro hs hu
    rw [PCgetBalance, if_neg hb', if_neg (by simp [hs])]
    by_cases he : env.encInitOk = false
    · rw [if_pos he]
    · rw [if_neg he, hu]
  · intro hs msg hu
    rw [PCgetBalance, if_neg hb', if_neg (by simp [hs])]
    by_cases he : env.encInitOk = false
    · rw [if_pos he]
    · rw [if_neg he, hu]
  · intro hs he
    rw [PCgetBalance, if_neg hb', if_neg (by simp [hs]), if_pos he]
  · intro e herr
    by_cases hs : env.sdkLoadOk = false
    · refine ⟨hs, ?_⟩
      rw [PCgetBalance, if_neg hb', if_pos hs] at herr
      injection herr with h
      exact h.symm
    · exfalso
      rw [PCgetBalance, if_neg hb', if_neg hs] at herr
      by_cases he : env.encInitOk = false
      · rw [if_pos he] at herr
        simp at herr
      · rw [if_neg he] at herr
        cases hu : env.utxos with
        | error msg =>
          rw [hu] at herr
          simp at herr
        | ok us =>
          rw [hu] at herr
          cases us with
          | nil => simp at herr
          | cons a l => simp at herr

/-- Witness for C9: an initialized account with no UTXOs gets balance zero
without an exception. -/
theorem C9_witness :
    demoClientEmpty.browser = true ∧ demoClientEmpty.sdkLoadOk = true ∧
    demoClientEmpty.utxos = .ok [] ∧ PCgetBalance demoClientEmpty = .ok 0 :=
  ⟨rfl, rfl, rfl, (C9_getBalance_contract demoClientEmpty rfl).1 rfl rfl⟩

/-- C10: `deposit` throws the client's `Insufficient balance` error exactly
when the on-chain public balance is strictly below the requested lamports
plus the fixed 10000-lamport buffer; otherwise it submits the deposit to
the SDK. -/
theorem C10_deposit_insufficient (env : ClientEnv) (lamports bal : ℕ)
    (hsdk : env.sdkLoadOk = true) (hrpc : env.rpcBalance = .ok bal) :
    ((PCdeposit env lamports).2 = .error (.insufficientBalance bal) ↔
      bal < lamports + 10000) ∧
    (env.encInitOk = true → lamports + 10000 ≤ bal →
      (PCdeposit env lamports).1 = [.submitDeposit lamports]) := by
  have hsdk' : ¬(env.sdkLoadOk = false) := by simp [hsdk]
  constructor
  · constructor
    · intro h
      by_cases hlt : bal < lamports + 10000
      · exact hlt
      · exfalso
        simp only [PCdeposit, if_neg hsdk', hrpc] at h
        rw [if_neg hlt] at h
        by_cases henc : env.encInitOk = false
        · rw [if_pos henc] at h
          simp at h
        · rw [if_neg henc] at h
          cases hdt : env.depositTx with
          | ok tx =>
            rw [hdt] at h
            simp at h
          | error e =>
            rw [hdt] at h
            simp at h
    · intro hlt
      simp only [PCdeposit, if_neg hsdk', hrpc]
      rw [if_pos hlt]
  · intro henc hge
    have hlt : ¬(bal < lamports + 10000) := by omega
    simp only [PCdeposit, if_neg hsdk', hrpc]
    rw [if_neg hlt, if_neg (by simp [henc])]

/-- Witness for C10: a wallet with 5000 lamports cannot deposit 1000000
lamports — the client throws its insufficient-balance error. -/
theorem C10_witness :
    demoClientPoor.sdkLoadOk = true ∧ demoClientPoor.rpcBalance = .ok 5000 ∧
    (PCdeposit demoClientPoor 1000000).2 = .error (.insufficientBalance 5000) := by
  have h := C10_deposit_insufficient demoClientPoor 1000000 5000 rfl rfl
  exact ⟨rfl, rfl, h.1.2 (by omega)⟩

end BooPrivacy
